import Mathlib

/-!
Verification development for `obsidian2hugo.py`, a converter from an Obsidian
note vault to Hugo page bundles.

The program text is shallowly embedded: Python strings are modelled as
`List Char`, YAML values as the inductive `Yaml`, Python dicts (which preserve
insertion order) as association lists, the filesystem as explicit functions,
and Python exceptions as `Except PyExc`.  The regular-expression operations of
the source (`FRONT_MATTER_PATTERN`, the attachment pattern `!\[\[(.*?)\]\]`,
and the wiki-link pattern `(?<!\\!)\[\[(.*?)\]\]`) are embedded as concrete
matching functions whose semantics follow Python's `re` backtracking engine on
exactly these patterns (MULTILINE/DOTALL flags as in the source).

External libraries (`hashlib.md5`, `yaml.safe_load`/`yaml.dump`) are not part
of the repository; they enter the model as explicit function parameters, and
`yloadDemo` below records PyYAML's behaviour on the handful of concrete
documents used in witnesses and counterexamples.
-/

/-- Python exception kinds relevant to this program. -/
inductive PyExc where
  | fileNotFoundError
  | permissionError
  | attributeError
  | typeError
  | ioError
deriving DecidableEq

/-- YAML values as produced by `yaml.safe_load`: scalars, sequences, and
order-preserving mappings with string keys (the only keys this program uses). -/
inductive Yaml where
  | null
  | bool (b : Bool)
  | int (n : Int)
  | str (s : String)
  | list (xs : List Yaml)
  | map (kvs : List (String × Yaml))

/-- Python truthiness of a YAML value, as used by `x or {}` and `if not x`
in the source (lines 97, 154, 158). -/
def Yaml.truthy : Yaml → Bool
  | .null => false
  | .bool b => b
  | .int n => !(n == 0)
  | .str s => !(s == "")
  | .list xs => !xs.isEmpty
  | .map kvs => !kvs.isEmpty

/-- Whether a YAML value is a mapping (a Python `dict`). -/
def isMapB : Yaml → Bool
  | .map _ => true
  | _ => false

/-- Python dict with string keys, order-preserving, keys unique. -/
abbrev Dict := List (String × Yaml)

/-- Python `d.get(k)` / `d[k]` lookup: first binding of the key. -/
def dictGet : Dict → String → Option Yaml
  | [], _ => none
  | (k1, v1) :: rest, k => if k1 == k then some v1 else dictGet rest k

/-- Python `d.get(k, default)`. -/
def dictGetD (kvs : Dict) (k : String) (d : Yaml) : Yaml :=
  (dictGet kvs k).getD d

/-- Python `k in d`. -/
def dictHas (kvs : Dict) (k : String) : Bool :=
  (dictGet kvs k).isSome

/-- Python `d[k] = v`: overwrite in place if the key exists (keeping its
position), otherwise append at the end. -/
def dictSet : Dict → String → Yaml → Dict
  | [], k, v => [(k, v)]
  | (k1, v1) :: rest, k, v =>
    if k1 == k then (k, v) :: rest else (k1, v1) :: dictSet rest k v

/-- Python `del d[k]`. -/
def dictDel : Dict → String → Dict
  | [], _ => []
  | (k1, v1) :: rest, k =>
    if k1 == k then dictDel rest k else (k1, v1) :: dictDel rest k

/-- Python `re` whitespace class `\s` (ASCII part, which is all this
program's inputs use): space, tab, newline, carriage return, vertical tab,
form feed. -/
def isPySpace (c : Char) : Bool :=
  c == ' ' || c == '\t' || c == '\n' || c == '\r' || c == '\x0b' || c == '\x0c'

/-- Python `str.lstrip()` (default whitespace), used at line 94. -/
def pyLstrip (l : List Char) : List Char :=
  l.dropWhile isPySpace

/-- Python `str.strip()` (default whitespace), used at line 130. -/
def stripChars (l : List Char) : List Char :=
  ((l.dropWhile isPySpace).reverse.dropWhile isPySpace).reverse

/-- Python `s.split(',')` (line 130): split at every comma; `"".split(',')`
is `[""]`. -/
def splitComma : List Char → List (List Char)
  | [] => [[]]
  | c :: cs =>
    if c == ',' then [] :: splitComma cs
    else
      match splitComma cs with
      | t :: ts => (c :: t) :: ts
      | [] => [[c]]

/-- Does the list begin with the three characters `---`?  Returns the
remainder after them.  Written with explicit character tests so that it
reduces even when the tail of the list is a variable. -/
def startsWithDashes (s : List Char) : Option (List Char) :=
  match s with
  | a :: s1 =>
    if a == '-' then
      match s1 with
      | b :: s2 =>
        if b == '-' then
          match s2 with
          | c :: s3 => if c == '-' then some s3 else none
          | [] => none
        else none
      | [] => none
    else none
  | [] => none

/-- Does `^` (with `re.MULTILINE`) match just before the current position,
given the previous character (`none` = start of string)? -/
def lineStartB (prev : Option Char) : Bool :=
  prev.isNone || prev == some '\n'

/-- Search for the first position, at a line start, where `---` begins
(the closing part `^---` of `FRONT_MATTER_PATTERN`, matched leftmost because
the preceding group `(.*?)` is non-greedy).  `prev` is the character before
the current position.  Returns the characters before the match (the rest of
group 1) and the characters after the three dashes. -/
def findClosing : Option Char → List Char → Option (List Char × List Char)
  | _, [] => none
  | prev, c :: cs =>
    if lineStartB prev then
      match startsWithDashes (c :: cs) with
      | some rest => some ([], rest)
      | none => (findClosing (some c) cs).map (fun p => (c :: p.1, p.2))
    else (findClosing (some c) cs).map (fun p => (c :: p.1, p.2))

/-- Index of the last newline in a whitespace run (the largest backtracking
position at which `$` of `^---\s*$` can match when the run is followed by a
non-whitespace character). -/
def lastNewlineIdx (ws : List Char) : Option Nat :=
  ((List.range ws.length).filter (fun i => ws.getD i ' ' == '\n')).getLast?

/-- `FRONT_MATTER_PATTERN.match(s)` (source line 71):
`re.compile(r'^---\s*$(.*?)^---\s*', re.DOTALL | re.MULTILINE)`, anchored at
the start of the string by `re.match`.  Returns `(group 1, text after the
match end)`; the match end consumes the greedy `\s*` after the closing `---`.

Semantics of the backtracking engine on this pattern: after the opening
`---`, the greedy `\s*` backtracks to the largest position at which `$`
matches (end of string, or just before a `\n`); if the whitespace run ends
the string there is no closing delimiter and the match fails, otherwise that
position is the index of the last newline of the run.  Group 1 then extends,
non-greedily, to the first position at a line start where `---` begins — the
pattern places no `$` after the closing `---`, so the closing line may
continue with arbitrary text. -/
def frontMatterMatch (s : List Char) : Option (List Char × List Char) :=
  match startsWithDashes s with
  | none => none
  | some rest =>
    let ws := rest.takeWhile isPySpace
    let tail := rest.dropWhile isPySpace
    let kOpt : Option Nat := if tail.isEmpty then some ws.length else lastNewlineIdx ws
    match kOpt with
    | none => none
    | some k =>
      let region := ws.drop k ++ tail
      let prev : Option Char := some (if k == 0 then '-' else ws.getD (k - 1) ' ')
      match findClosing prev region with
      | some (g, after) => some (g, after.dropWhile isPySpace)
      | none => none

/-- `parse_note_content` (source lines 85-102): split raw text into YAML
front matter and body.  `yload` stands for the external `yaml.safe_load`
(`Except.error` = `yaml.YAMLError`); `or {}` in the source coerces a falsy
load result to the empty dict. -/
def parse_note_content (yload : List Char → Except Unit Yaml)
    (full_content : List Char) : Yaml × List Char :=
  match frontMatterMatch full_content with
  | none => (.map [], full_content)
  | some (yaml_content, rest) =>
    let note_body := pyLstrip rest
    match yload yaml_content with
    | .ok v => (if v.truthy then v else .map [], note_body)
    | .error _ => (.map [], full_content)

/-- Non-greedy scan of `(.*?)\]\]` without `re.DOTALL` (the attachment and
wiki-link patterns, source lines 170 and 205): consume characters up to the
first `]]`; `.` does not match a newline, so a newline before any `]]` makes
the scan fail.  Returns (captured name, rest after `]]`). -/
def scanToClose : List Char → Option (List Char × List Char)
  | ']' :: ']' :: rest => some ([], rest)
  | '\n' :: _ => none
  | c :: cs => (scanToClose cs).map (fun p => (c :: p.1, p.2))
  | [] => none

/-- `re.finditer(r'!\[\[(.*?)\]\]', content)` (source line 173): all
non-overlapping matches, left to right; each element is
(group 0 = the full token, group 1 = the attachment filename).
Fuelled so that the definition is structurally recursive; the wrapper passes
fuel `length + 1`, which every branch respects since each step consumes at
least one character. -/
def findEmbedsGo : Nat → List Char → List (List Char × List Char)
  | 0, _ => []
  | _, [] => []
  | fuel + 1, '!' :: '[' :: '[' :: rest =>
    match scanToClose rest with
    | some (name, after) =>
      ('!' :: '[' :: '[' :: (name ++ [']', ']']), name) :: findEmbedsGo fuel after
    | none => findEmbedsGo fuel ('[' :: '[' :: rest)
  | fuel + 1, _ :: cs => findEmbedsGo fuel cs

/-- All attachment-embed tokens of a body, in order of first discovery. -/
def findEmbeds (s : List Char) : List (List Char × List Char) :=
  findEmbedsGo (s.length + 1) s

/-- `re.sub(r'(?<!\\!)\[\[(.*?)\]\]', r'\1', content)` (source lines 205-208).
Note the pattern is the raw string `r'(?<!\\!)...'`, so the negative
lookbehind is for the two-character sequence backslash-exclamation-mark, not
for a bare `!`: `p2`/`p1` track the two characters before the current
position in the original string.  Each match `[[name]]` is replaced by its
inner text `name`.  (The `re.search` guard at line 206 only controls a log
message: `re.sub` with no match is the identity.) -/
def wikiSubGo : Nat → Option Char → Option Char → List Char → List Char
  | 0, _, _, s => s
  | _, _, _, [] => []
  | fuel + 1, p2, p1, '[' :: '[' :: rest =>
    if p2 == some '\\' && p1 == some '!' then
      '[' :: wikiSubGo fuel p1 (some '[') ('[' :: rest)
    else
      match scanToClose rest with
      | some (name, after) => name ++ wikiSubGo fuel (some ']') (some ']') after
      | none => '[' :: wikiSubGo fuel p1 (some '[') ('[' :: rest)
  | fuel + 1, _, p1, c :: cs => c :: wikiSubGo fuel p1 (some c) cs

/-- The wiki-link stripping step applied to a whole body. -/
def wikiSub (s : List Char) : List Char :=
  wikiSubGo (s.length + 1) none none s

/-- Python `content.replace(old, new)` (source line 200): replace every
non-overlapping occurrence, left to right.  The patterns this program uses
are embed tokens, never empty; for an empty pattern the model returns the
input unchanged (Python would interleave `rep`, a case the source cannot
reach). -/
def replaceAllGo (pat rep : List Char) : Nat → List Char → List Char
  | 0, s => s
  | _, [] => []
  | fuel + 1, c :: cs =>
    if pat.isPrefixOf (c :: cs) then
      rep ++ replaceAllGo pat rep fuel ((c :: cs).drop pat.length)
    else c :: replaceAllGo pat rep fuel cs

/-- `content.replace(old, new)` with a non-empty `old`. -/
def replaceAll (pat rep s : List Char) : List Char :=
  if pat.isEmpty then s else replaceAllGo pat rep (s.length + 1) s

/-- Final path component of a POSIX path string (`PurePosixPath(...).name`),
ignoring trailing slashes. -/
def pathName (s : String) : String :=
  String.mk (((s.toList.reverse.dropWhile (fun c => c == '/')).takeWhile
    (fun c => !(c == '/'))).reverse)

/-- `Path(...).suffix` (source line 187): the extension of the final
component including the leading dot; empty when the last dot is absent, at
position 0, or at the very end (CPython: `0 < i < len(name) - 1`). -/
def pathSuffix (s : String) : String :=
  let name := (pathName s).toList
  match ((List.range name.length).filter
      (fun i => name.getD i ' ' == '.')).getLast? with
  | some i =>
    if 0 < i ∧ i < name.length - 1 then String.mk (name.drop i) else ""
  | none => ""

/-- State of a file in the attachments directory: missing, readable with the
given byte content, or present but raising the given exception when opened
or read. -/
inductive FileState where
  | absent
  | readable (bytes : List Nat)
  | unreadable (e : PyExc)

/-- `calculate_md5` (source lines 73-83): stream the file through the
external `hashlib.md5` (parameter `md5`) and return the hex digest; only
`FileNotFoundError` is caught (warning logged, `None` returned) — any other
exception raised while opening or reading propagates to the caller. -/
def calculate_md5 (md5 : List Nat → String) (fs : String → FileState)
    (path : String) : Except PyExc (Option String) :=
  match fs path with
  | .readable bytes => .ok (some (md5 bytes))
  | .absent => .ok none
  | .unreadable e => if e = .fileNotFoundError then .ok none else .error e

/-- Resolution of one embed token (source lines 177-189): if the attachment
does not exist, warn and skip (`None`); otherwise hash it (`None` again if
hashing returned `None`) and form the target filename
`md5_hash + extension`. -/
def resolveEmbed (md5 : List Nat → String) (fs : String → FileState)
    (name : List Char) : Except PyExc (Option String) :=
  let nameS := String.mk name
  match fs nameS with
  | .absent => .ok none
  | _ =>
    match calculate_md5 md5 fs nameS with
    | .error e => .error e
    | .ok none => .ok none
    | .ok (some h) => .ok (some (h ++ pathSuffix nameS))

/-- The attachment loop (source lines 173-195): resolve each embed token in
order; a resolved token contributes a replacement pair
`(token, "![](new_filename)")` and a `shutil.copy2` call recorded as
`(original filename, new filename)`. -/
def resolveEmbeds (md5 : List Nat → String) (fs : String → FileState) :
    List (List Char × List Char) →
    Except PyExc (List (List Char × List Char) × List (String × String))
  | [] => .ok ([], [])
  | (tok, name) :: rest =>
    match resolveEmbed md5 fs name with
    | .error e => .error e
    | .ok none => resolveEmbeds md5 fs rest
    | .ok (some newName) =>
      match resolveEmbeds md5 fs rest with
      | .error e => .error e
      | .ok (reps, copies) =>
        .ok ((tok, ("![](" ++ newName ++ ")").toList) :: reps,
             (String.mk name, newName) :: copies)

/-- Tag normalization (source lines 128-132): a string is split on commas
with each fragment stripped; any other value `v` becomes `v or []`
(so a falsy value becomes the empty list and a truthy one is kept as is). -/
def tagsListOf (v : Yaml) : Yaml :=
  match v with
  | .str s =>
    .list ((splitComma s.toList).map (fun t => .str (String.mk (stripChars t))))
  | v => if v.truthy then v else .list []

/-- Python `==` between a value and a string: string comparison is exact and
case-sensitive; every cross-type comparison against a string is `False`
(the only comparisons this pipeline performs are against the filter tag,
which is a string). -/
def pyEqStr (t : Yaml) (s : String) : Bool :=
  match t with
  | .str x => x == s
  | _ => false

/-- Is one character list a contiguous sublist of another (Python substring
containment `n in s` for strings)? -/
def sublistB (pat : List Char) : List Char → Bool
  | [] => pat.isEmpty
  | c :: cs => pat.isPrefixOf (c :: cs) || sublistB pat cs

/-- Python `needle in container` for a string needle (source line 134): list
membership by `==`, dict key membership, substring test on strings;
`in` on a scalar raises `TypeError`. -/
def pyContainsStr (container : Yaml) (n : String) : Except PyExc Bool :=
  match container with
  | .list xs => .ok (xs.any (fun t => pyEqStr t n))
  | .map kvs => .ok (kvs.any (fun p => p.1 == n))
  | .str s => .ok (sublistB n.toList s.toList)
  | _ => .error .typeError

/-- Python iteration over a value (the list comprehension at source line
144): lists yield their elements, strings their characters, dicts their
keys; iterating a scalar raises `TypeError`. -/
def pyIter : Yaml → Except PyExc (List Yaml)
  | .list xs => .ok xs
  | .str s => .ok (s.toList.map (fun c => .str (String.mk [c])))
  | .map kvs => .ok (kvs.map (fun p => .str p.1))
  | _ => .error .typeError

/-- Tag-list update after selection (source lines 142-150): with the
remove flag, filter out every element equal to the filter tag; assign the
result back if non-empty, delete the `tags` key if present otherwise;
without the flag, assign the normalized list back. -/
def updateTags (rm : Bool) (ftag : String) (tags_list : Yaml) (kvs : Dict) :
    Except PyExc Dict :=
  if rm then
    match pyIter tags_list with
    | .error e => .error e
    | .ok elems =>
      let updated := elems.filter (fun t => !pyEqStr t ftag)
      if updated.isEmpty then
        if dictHas kvs "tags" then .ok (dictDel kvs "tags") else .ok kvs
      else .ok (dictSet kvs "tags" (.list updated))
  else .ok (dictSet kvs "tags" tags_list)

/-- Defaulting of `title` and `date` (source lines 154-162): a falsy or
absent `title` is replaced by the note's filename stem; a falsy or absent
`date` by the current timestamp, which enters the model as the parameter
`now`. -/
def applyDefaults (stem now : String) (kvs : Dict) : Dict :=
  let kvs1 :=
    if (dictGetD kvs "title" .null).truthy then kvs
    else dictSet kvs "title" (.str stem)
  if (dictGetD kvs1 "date" .null).truthy then kvs1
  else dictSet kvs1 "date" (.str now)

/-- Observable outcome of processing one selected note: the bundle directory
name (the note's stem, line 165), the `shutil.copy2` calls performed, and the
properties and body written to `index.md` (lines 211-217; the YAML
serialization of `props` is the external `yaml.dump`). -/
structure NoteResult where
  dirName : String
  copies : List (String × String)
  props : Dict
  body : List Char

/-- The per-note pipeline after the front matter has parsed to a mapping
(source lines 127-217): tag check (`continue` = `.ok none`), tag update,
title/date defaults, attachment resolution, embed replacement, wiki-link
stripping. -/
def processTagged (md5 : List Nat → String) (fs : String → FileState)
    (ftag : String) (rm : Bool) (now stem : String) (kvs : Dict)
    (content : List Char) : Except PyExc (Option NoteResult) :=
  let tags_list := tagsListOf (dictGetD kvs "tags" (.list []))
  match pyContainsStr tags_list ftag with
  | .error e => .error e
  | .ok false => .ok none
  | .ok true =>
    match updateTags rm ftag tags_list kvs with
    | .error e => .error e
    | .ok kvs1 =>
      let kvs2 := applyDefaults stem now kvs1
      match resolveEmbeds md5 fs (findEmbeds content) with
      | .error e => .error e
      | .ok (reps, copies) =>
        let content1 := reps.foldl (fun c pr => replaceAll pr.1 pr.2 c) content
        .ok (some ⟨stem, copies, kvs2, wikiSub content1⟩)

/-- One iteration of the note loop (source lines 115-219).  `readRes` is the
outcome of `open(note_path).read()`: the loop body has no exception handler,
so a read failure propagates.  `properties.get('tags', [])` on a non-mapping
raises `AttributeError`. -/
def processNote (md5 : List Nat → String) (fs : String → FileState)
    (yload : List Char → Except Unit Yaml) (ftag : String) (rm : Bool)
    (now stem : String) (readRes : Except PyExc (List Char)) :
    Except PyExc (Option NoteResult) :=
  match readRes with
  | .error e => .error e
  | .ok full_content =>
    let pc := parse_note_content yload full_content
    match pc.1 with
    | .map kvs => processTagged md5 fs ftag rm now stem kvs pc.2
    | _ => .error .attributeError

/-- `process_notes` (source lines 104-221), restricted to the per-note loop:
notes are given in enumeration order as (stem, read outcome).  An uncaught
exception from any note aborts the whole loop; a skipped note contributes
nothing. -/
def process_notes (md5 : List Nat → String) (fs : String → FileState)
    (yload : List Char → Except Unit Yaml) (ftag : String) (rm : Bool)
    (now : String) :
    List (String × Except PyExc (List Char)) → Except PyExc (List NoteResult)
  | [] => .ok []
  | (stem, r) :: rest =>
    match processNote md5 fs yload ftag rm now stem r with
    | .error e => .error e
    | .ok none => process_notes md5 fs yload ftag rm now rest
    | .ok (some b) =>
      match process_notes md5 fs yload ftag rm now rest with
      | .error e => .error e
      | .ok bs => .ok (b :: bs)

/-- PyYAML `yaml.safe_load` (external library) on the concrete front-matter
regions used in this development; every other document is treated as
malformed (`.error ()` = `yaml.YAMLError`), in particular the region
`"\na: [\n"`, whose unclosed flow sequence is a real YAML error. -/
def yloadDemo (l : List Char) : Except Unit Yaml :=
  if l == "\ntags: blog\n".toList then .ok (.map [("tags", .str "blog")])
  else if l == "\ntitle: t\n".toList then .ok (.map [("title", .str "t")])
  else if l == "\na: 1\n".toList then .ok (.map [("a", .int 1)])
  else if l == "\n0\n".toList then .ok (.int 0)
  else if l == "\nhello\n".toList then .ok (.str "hello")
  else .error ()

/-- A concrete stand-in for the MD5 hex digest in closed evaluations (any
function of the byte content exhibits the behaviours at issue). -/
def md5c : List Nat → String := fun _ => "d41d8cd9"

/-- Attachment directory with no files. -/
def fsAbsent : String → FileState := fun _ => .absent

/-- Attachment directory where `a.png` exists but reading it raises
`PermissionError`. -/
def fsPerm : String → FileState :=
  fun p => if p == "a.png" then .unreadable .permissionError else .absent

/-- Attachment directory with two files of identical byte content but
different extensions. -/
def fsTwin : String → FileState :=
  fun p => if p == "a.png" || p == "b.jpg" then .readable [7] else .absent

/-- A "header line": non-empty, its only newline is its final character, and
it does not begin with `---`. -/
def goodLine (li : List Char) : Prop :=
  (∀ c ∈ li.dropLast, c ≠ '\n') ∧ li.getLast? = some '\n' ∧
    startsWithDashes li = none

/-- An attachment directory is benign when the only exception its files can
raise is `FileNotFoundError` (which `calculate_md5` catches). -/
def fsBenign (fs : String → FileState) : Prop :=
  ∀ p e, fs p = .unreadable e → e = PyExc.fileNotFoundError

/-- The four writes emitting `index.md` (source lines 212-217): opening
delimiter line, the serialized properties (the external `yaml.dump` output
enters as `yaml_header`), closing delimiter line, a blank line, then the
body. -/
def writeIndex (yaml_header body : List Char) : List Char :=
  "---\n".toList ++ yaml_header ++ "---\n\n".toList ++ body

/-- Comma-separated rendering of a tag sequence, used to state the
string-versus-sequence agreement law of the tag filter. -/
def joinComma : List (List Char) → List Char
  | [] => []
  | [t] => t
  | t :: ts => t ++ ',' :: joinComma ts

theorem dictGet_dictSet_self (kvs : Dict) (k : String) (v : Yaml) :
    dictGet (dictSet kvs k v) k = some v := by
  induction kvs with
  | nil => simp [dictSet, dictGet]
  | cons p rest ih =>
    obtain ⟨k1, v1⟩ := p
    by_cases h : k1 == k
    · simp [dictSet, dictGet, h]
    · simp [dictSet, dictGet, h, ih]

theorem dictGet_dictSet_ne (kvs : Dict) (k k2 : String) (v : Yaml)
    (h : k ≠ k2) : dictGet (dictSet kvs k v) k2 = dictGet kvs k2 := by
  induction kvs with
  | nil => simp [dictSet, dictGet, h]
  | cons p rest ih =>
    obtain ⟨k1, v1⟩ := p
    by_cases h1 : k1 == k
    · have : k1 = k := by simpa using h1
      subst this
      simp [dictSet, dictGet, h, fun hc => h (by simpa using hc)]
    · simp [dictSet, dictGet, h1, ih]

theorem dictGet_dictDel_self (kvs : Dict) (k : String) :
    dictGet (dictDel kvs k) k = none := by
  induction kvs with
  | nil => simp [dictDel, dictGet]
  | cons p rest ih =>
    obtain ⟨k1, v1⟩ := p
    by_cases h : k1 == k
    · simp [dictDel, dictGet, h, ih]
    · simp [dictDel, dictGet, h, ih]

/-- The title/date defaulting step never touches the `tags` key. -/
theorem dictGet_applyDefaults_tags (stem now : String) (kvs : Dict) :
    dictGet (applyDefaults stem now kvs) "tags" = dictGet kvs "tags" := by
  have h1 : ("title" : String) ≠ "tags" := by decide
  have h2 : ("date" : String) ≠ "tags" := by decide
  unfold applyDefaults
  by_cases c1 : (dictGetD kvs "title" Yaml.null).truthy = true
  · simp only [c1, if_true]
    by_cases c2 : (dictGetD kvs "date" Yaml.null).truthy = true
    · simp [c2]
    · simp [c2, dictGet_dictSet_ne _ _ _ _ h2]
  · simp only [c1, if_false, Bool.false_eq_true]
    by_cases c2 : (dictGetD (dictSet kvs "title" (Yaml.str stem)) "date" Yaml.null).truthy = true
    · simp [c2, dictGet_dictSet_ne _ _ _ _ h1]
    · simp [c2, dictGet_dictSet_ne _ _ _ _ h1, dictGet_dictSet_ne _ _ _ _ h2]

theorem startsWithDashes_append (li S : List Char)
    (h : startsWithDashes li = none) (hend : li.getLast? = some '\n') :
    startsWithDashes (li ++ S) = none := by
  match li with
  | [] => simp at hend
  | [a] =>
    have ha : a = '\n' := by simpa using hend
    subst ha
    rfl
  | [a, b] =>
    have hb : b = '\n' := by simpa using hend
    subst hb
    by_cases ha : a == '-'
    · simp [startsWithDashes, ha]
    · simp [startsWithDashes, ha]
  | a :: b :: c :: l =>
    by_cases ha : a == '-'
    · by_cases hb : b == '-'
      · by_cases hc : c == '-'
        · exfalso
          simp [startsWithDashes, ha, hb, hc] at h
        · simp [startsWithDashes, ha, hb, hc]
      · simp [startsWithDashes, ha, hb]
    · simp [startsWithDashes, ha]

/-- Scanning `^---` through one header line: the line itself can never host
a match (its only line start is its first position and it does not begin
with `---`), so the search continues after its final newline. -/
theorem findClosing_append_line (li S : List Char) (prev : Option Char)
    (hnl : ∀ c ∈ li.dropLast, c ≠ '\n')
    (hend : li.getLast? = some '\n')
    (hnd : lineStartB prev = true → startsWithDashes (li ++ S) = none) :
    findClosing prev (li ++ S) =
      (findClosing (some '\n') S).map (fun p => (li ++ p.1, p.2)) := by
  induction li generalizing prev with
  | nil => simp at hend
  | cons a li ih =>
    cases li with
    | nil =>
      have ha : a = '\n' := by simpa using hend
      subst ha
      by_cases hp : lineStartB prev = true
      · simp only [List.cons_append, List.nil_append]
        rw [findClosing, if_pos hp]
        rw [show startsWithDashes ('\n' :: S) = none from rfl]
      · simp only [List.cons_append, List.nil_append]
        rw [findClosing, if_neg hp]
    | cons b li2 =>
      have ha : a ≠ '\n' := hnl a (by simp)
      have step : findClosing prev ((a :: b :: li2) ++ S) =
          (findClosing (some a) ((b :: li2) ++ S)).map
            (fun p => (a :: p.1, p.2)) := by
        by_cases hp : lineStartB prev = true
        · have hd := hnd hp
          simp only [List.cons_append] at hd ⊢
          rw [findClosing, if_pos hp, hd]
        · simp only [List.cons_append]
          rw [findClosing, if_neg hp]
      rw [step]
      have hnl2 : ∀ c ∈ (b :: li2).dropLast, c ≠ '\n' := by
        intro c hc
        exact hnl c (by simp [List.dropLast_cons₂, hc])
      have hend2 : (b :: li2).getLast? = some '\n' := by
        simpa [List.getLast?_cons_cons] using hend
      have hnd2 : lineStartB (some a) = true →
          startsWithDashes ((b :: li2) ++ S) = none := by
        intro hls
        exfalso
        have hx : (a == '\n') = true := by
          simpa [lineStartB] using hls
        exact ha (by simpa using hx)
      rw [ih (some a) hnl2 hend2 hnd2]
      cases findClosing (some '\n') S <;> simp

/-- Walking the whole header, line by line: the first (leftmost) line-start
occurrence of `---` after a block of header lines is the appended one. -/
theorem findClosing_lines (lines : List (List Char)) (t : List Char)
    (hl : ∀ li ∈ lines, goodLine li) :
    findClosing (some '\n') (lines.flatten ++ '-' :: '-' :: '-' :: t) =
      some (lines.flatten, t) := by
  induction lines with
  | nil =>
    simp only [List.flatten_nil, List.nil_append]
    rw [findClosing]
    rfl
  | cons li rest ih =>
    obtain ⟨h1, h2, h3⟩ := hl li (by simp)
    have hrest : ∀ li2 ∈ rest, goodLine li2 := fun li2 h => hl li2 (by simp [h])
    rw [List.flatten_cons, List.append_assoc]
    rw [findClosing_append_line li _ (some '\n') h1 h2
      (fun _ => startsWithDashes_append li _ h3 h2)]
    rw [ih hrest]
    simp

/-- The shape of every successful `FRONT_MATTER_PATTERN` match whose
whitespace after the opening `---` is a single newline: the captured group is
that newline plus the header lines, and the text after the closing `---` —
which may be arbitrary, even non-whitespace on the closing line — has its
leading whitespace consumed by the trailing `\s*`. -/
theorem frontMatterMatch_structured (lines : List (List Char)) (t : List Char)
    (hl : ∀ li ∈ lines, goodLine li)
    (hfirst : ∀ c cs, lines.flatten = c :: cs → isPySpace c = false) :
    frontMatterMatch
        ('-' :: '-' :: '-' :: '\n' :: (lines.flatten ++ '-' :: '-' :: '-' :: t)) =
      some ('\n' :: lines.flatten, t.dropWhile isPySpace) := by
  have hws : ('\n' :: (lines.flatten ++ '-' :: '-' :: '-' :: t)).takeWhile isPySpace
      = ['\n'] := by
    cases hj : lines.flatten with
    | nil =>
      simp [List.takeWhile_cons, show isPySpace '\n' = true from rfl,
        show isPySpace '-' = false from rfl]
    | cons c cs =>
      have hc := hfirst c cs hj
      simp [hj, List.takeWhile_cons, hc, show isPySpace '\n' = true from rfl]
  have hdrop : ('\n' :: (lines.flatten ++ '-' :: '-' :: '-' :: t)).dropWhile isPySpace
      = lines.flatten ++ '-' :: '-' :: '-' :: t := by
    cases hj : lines.flatten with
    | nil =>
      simp [List.dropWhile_cons, show isPySpace '\n' = true from rfl,
        show isPySpace '-' = false from rfl]
    | cons c cs =>
      have hc := hfirst c cs hj
      simp [hj, List.dropWhile_cons, hc, show isPySpace '\n' = true from rfl]
  have htail : (lines.flatten ++ '-' :: '-' :: '-' :: t).isEmpty = false := by
    cases lines.flatten <;> simp
  have hfc : findClosing (some '-')
      ('\n' :: (lines.flatten ++ '-' :: '-' :: '-' :: t)) =
      (findClosing (some '\n') (lines.flatten ++ '-' :: '-' :: '-' :: t)).map
        (fun p => ('\n' :: p.1, p.2)) := by
    rw [findClosing]
    rfl
  unfold frontMatterMatch
  rw [show startsWithDashes
      ('-' :: '-' :: '-' :: '\n' :: (lines.flatten ++ '-' :: '-' :: '-' :: t)) =
      some ('\n' :: (lines.flatten ++ '-' :: '-' :: '-' :: t)) from rfl]
  simp only [hws, hdrop, htail, Bool.false_eq_true, if_false]
  rw [show lastNewlineIdx ['\n'] = some 0 from rfl]
  simp only [List.drop_zero, beq_self_eq_true, if_pos]
  rw [List.singleton_append, hfc, findClosing_lines lines t hl]
  rfl

theorem splitComma_ne_nil (l : List Char) : splitComma l ≠ [] := by
  induction l with
  | nil => simp [splitComma]
  | cons c cs ih =>
    by_cases hc : c == ','
    · simp [splitComma, hc]
    · simp only [splitComma, hc, Bool.false_eq_true, if_false]
      cases h : splitComma cs with
      | nil => exact absurd h ih
      | cons t ts => simp

theorem splitComma_no_comma (l : List Char) (h : ',' ∉ l) :
    splitComma l = [l] := by
  induction l with
  | nil => rfl
  | cons c cs ih =>
    have hc1 : c ≠ ',' := fun hx => h (by simp [hx])
    have hc : (c == ',') = false := beq_eq_false_iff_ne.mpr hc1
    have hcs : ',' ∉ cs := fun hx => h (by simp [hx])
    simp [splitComma, hc, ih hcs]

theorem splitComma_head_comma (t l : List Char) (h : ',' ∉ t) :
    splitComma (t ++ ',' :: l) = t :: splitComma l := by
  induction t with
  | nil => simp [splitComma]
  | cons c cs ih =>
    have hc1 : c ≠ ',' := fun hx => h (by simp [hx])
    have hc : (c == ',') = false := beq_eq_false_iff_ne.mpr hc1
    have hcs : ',' ∉ cs := fun hx => h (by simp [hx])
    simp only [List.cons_append, splitComma, hc, Bool.false_eq_true, if_false,
      List.append_eq]
    rw [ih hcs]

theorem splitComma_joinComma (ts : List (List Char)) (hne : ts ≠ [])
    (h : ∀ t ∈ ts, ',' ∉ t) :
    splitComma (joinComma ts) = ts := by
  induction ts with
  | nil => exact absurd rfl hne
  | cons t rest ih =>
    cases rest with
    | nil =>
      simp only [joinComma]
      exact splitComma_no_comma t (h t (by simp))
    | cons t2 rest2 =>
      rw [show joinComma (t :: t2 :: rest2) = t ++ ',' :: joinComma (t2 :: rest2)
        from rfl]
      rw [splitComma_head_comma t _ (h t (by simp))]
      rw [ih (by simp) (fun u hu => h u (by simp [hu]))]

theorem resolveEmbed_ok (md5 : List Nat → String) (fs : String → FileState)
    (hB : fsBenign fs) (name : List Char) :
    ∃ o, resolveEmbed md5 fs name = .ok o := by
  cases hf : fs (String.mk name) with
  | absent => exact ⟨none, by simp [resolveEmbed, calculate_md5, hf]⟩
  | readable bytes =>
    exact ⟨some (md5 bytes ++ pathSuffix (String.mk name)),
      by simp [resolveEmbed, calculate_md5, hf]⟩
  | unreadable e =>
    have he := hB _ _ hf
    subst he
    exact ⟨none, by simp [resolveEmbed, calculate_md5, hf]⟩

theorem resolveEmbeds_ok (md5 : List Nat → String) (fs : String → FileState)
    (hB : fsBenign fs) (es : List (List Char × List Char)) :
    ∃ out, resolveEmbeds md5 fs es = .ok out := by
  induction es with
  | nil => exact ⟨([], []), rfl⟩
  | cons e rest ih =>
    obtain ⟨tok, name⟩ := e
    obtain ⟨o, ho⟩ := resolveEmbed_ok md5 fs hB name
    obtain ⟨out, hout⟩ := ih
    cases o with
    | none => exact ⟨out, by simp [resolveEmbeds, ho, hout]⟩
    | some newName =>
      exact ⟨((tok, ("![](" ++ newName ++ ")").toList) :: out.1,
        (String.mk name, newName) :: out.2), by simp [resolveEmbeds, ho, hout]⟩

theorem pyIter_ok_of_contains (tl : Yaml) (f : String) (b : Bool)
    (h : pyContainsStr tl f = .ok b) : ∃ l, pyIter tl = .ok l := by
  cases tl <;> simp_all [pyContainsStr, pyIter]

theorem updateTags_ok (rm : Bool) (f : String) (tl : Yaml) (kvs : Dict)
    (l : List Yaml) (h : pyIter tl = .ok l) :
    ∃ d, updateTags rm f tl kvs = .ok d := by
  cases rm with
  | false => exact ⟨dictSet kvs "tags" tl, rfl⟩
  | true =>
    simp only [updateTags, h, if_true]
    split
    · split
      · exact ⟨_, rfl⟩
      · exact ⟨_, rfl⟩
    · exact ⟨_, rfl⟩

/-- C1: the claim says the cross-reference stripping step never modifies
embed tokens `![[x]]`, so an unresolved embed should appear verbatim in the
emitted body.  The code violates this: the raw-string lookbehind `(?<!\\!)`
guards against a literal backslash-bang, not against `!`, so the wiki-link
substitution rewrites the unresolved embed `![[missing.png]]` to
`!missing.png` — contradicting the comment at source lines 203-204, which
states the lookbehind is there precisely to leave `![[...]]` untouched.
This theorem evaluates the per-note pipeline at the failing input. -/
theorem c1_unresolved_embed_mangled :
    processNote md5c fsAbsent yloadDemo "blog" false "D" "Foo"
      (.ok "---\ntags: blog\n---\nSee ![[missing.png]]".toList) =
      .ok (some ⟨"Foo", [], [("tags", .list [.str "blog"]),
        ("title", .str "Foo"), ("date", .str "D")],
        "See !missing.png".toList⟩) ∧
    "See !missing.png".toList ≠ "See ![[missing.png]]".toList :=
  ⟨rfl, by decide⟩

/-- C2 (counterexample): a vault of two notes in which the first note's file
read raises `PermissionError` and the second is a perfectly processable
tagged note.  The run aborts with the exception — no bundle at all is
produced — although the second note alone yields a bundle.  This refutes
"a failure while processing one note does not abort processing of the
remaining notes". -/
theorem c2_counterexample :
    process_notes md5c fsAbsent yloadDemo "blog" false "D"
      [("A", .error .permissionError),
       ("B", .ok "---\ntags: blog\n---\nhi".toList)] =
      .error .permissionError ∧
    process_notes md5c fsAbsent yloadDemo "blog" false "D"
      [("B", .ok "---\ntags: blog\n---\nhi".toList)] =
      .ok [⟨"B", [], [("tags", .list [.str "blog"]), ("title", .str "B"),
        ("date", .str "D")], "hi".toList⟩] :=
  ⟨rfl, rfl⟩

/-- C2 (amended): the per-note loop has no exception handler, so it
continues past a note only when that note is *skipped* by an explicit check
(tag mismatch and the other guarded conditions); any exception raised while
processing a note — an unreadable note file, a copy error, a write error —
propagates and aborts the processing of all remaining notes. -/
theorem c2_loop_behaviour (md5 : List Nat → String) (fs : String → FileState)
    (yload : List Char → Except Unit Yaml) (ftag : String) (rm : Bool)
    (now stem : String) (r0 : Except PyExc (List Char))
    (rest : List (String × Except PyExc (List Char))) (e : PyExc)
    (b : NoteResult) :
    (processNote md5 fs yload ftag rm now stem r0 = .error e →
      process_notes md5 fs yload ftag rm now ((stem, r0) :: rest) = .error e) ∧
    (processNote md5 fs yload ftag rm now stem r0 = .ok none →
      process_notes md5 fs yload ftag rm now ((stem, r0) :: rest) =
        process_notes md5 fs yload ftag rm now rest) ∧
    (processNote md5 fs yload ftag rm now stem r0 = .ok (some b) →
      process_notes md5 fs yload ftag rm now ((stem, r0) :: rest) =
        (process_notes md5 fs yload ftag rm now rest).map (fun bs => b :: bs)) := by
  refine ⟨fun h => ?_, fun h => ?_, fun h => ?_⟩
  · simp [process_notes, h]
  · simp [process_notes, h]
  · simp only [process_notes, h]
    cases process_notes md5 fs yload ftag rm now rest <;> simp [Except.map]

/-- C2 (witness): the loop lemma applied at the two-note counterexample
vault, discharging the `processNote` hypotheses by evaluation. -/
theorem c2_loop_behaviour_witness :
    process_notes md5c fsAbsent yloadDemo "blog" false "D"
      [("A", .error .permissionError),
       ("B", .ok "---\ntags: blog\n---\nhi".toList)] =
      .error .permissionError ∧
    process_notes md5c fsAbsent yloadDemo "blog" false "D"
      [("skipped", .ok "no front matter".toList),
       ("B", .ok "---\ntags: blog\n---\nhi".toList)] =
      process_notes md5c fsAbsent yloadDemo "blog" false "D"
        [("B", .ok "---\ntags: blog\n---\nhi".toList)] :=
  ⟨(c2_loop_behaviour md5c fsAbsent yloadDemo "blog" false "D" "A"
      (.error .permissionError)
      [("B", .ok "---\ntags: blog\n---\nhi".toList)] .permissionError
      ⟨"", [], [], []⟩).1 rfl,
   (c2_loop_behaviour md5c fsAbsent yloadDemo "blog" false "D" "skipped"
      (.ok "no front matter".toList)
      [("B", .ok "---\ntags: blog\n---\nhi".toList)] .permissionError
      ⟨"", [], [], []⟩).2.1 rfl⟩

/-- C3 (counterexample): an attachment that exists but whose read raises
`PermissionError` (not `FileNotFoundError`).  The claim says any read
failure is reported, the token skipped, and the run continues; in fact the
exception escapes `calculate_md5` (whose handler only catches
`FileNotFoundError`) and aborts the whole run. -/
theorem c3_counterexample :
    processNote md5c fsPerm yloadDemo "blog" false "D" "N"
      (.ok "---\ntags: blog\n---\n![[a.png]]".toList) =
      .error .permissionError :=
  rfl

/-- C3 (amended): during hashing only `FileNotFoundError` is caught — it is
reported and the token is skipped with no replacement recorded; any other
read failure propagates out of `calculate_md5` (and hence aborts the run,
since the per-note loop has no handler). -/
theorem c3_only_fnf_caught (md5 : List Nat → String) (fs : String → FileState)
    (name : List Char) (e : PyExc)
    (h : fs (String.mk name) = .unreadable e) :
    (e = .fileNotFoundError →
      calculate_md5 md5 fs (String.mk name) = .ok none ∧
      resolveEmbed md5 fs name = .ok none) ∧
    (e ≠ .fileNotFoundError →
      calculate_md5 md5 fs (String.mk name) = .error e ∧
      resolveEmbed md5 fs name = .error e) := by
  constructor
  · intro he
    subst he
    exact ⟨by simp [calculate_md5, h], by simp [resolveEmbed, calculate_md5, h]⟩
  · intro he
    exact ⟨by simp [calculate_md5, h, he], by simp [resolveEmbed, calculate_md5, h, he]⟩

/-- C3 (witness): the amended statement applied to a concrete unreadable
attachment and to a concrete file raising `FileNotFoundError`. -/
theorem c3_only_fnf_caught_witness :
    (calculate_md5 md5c fsPerm (String.mk "a.png".toList) = .error .permissionError ∧
      resolveEmbed md5c fsPerm "a.png".toList = .error .permissionError) ∧
    (calculate_md5 md5c (fun _ => FileState.unreadable .fileNotFoundError)
        (String.mk "b.png".toList) = .ok none ∧
      resolveEmbed md5c (fun _ => FileState.unreadable .fileNotFoundError)
        "b.png".toList = .ok none) :=
  ⟨(c3_only_fnf_caught md5c fsPerm "a.png".toList .permissionError rfl).2
      (by decide),
   (c3_only_fnf_caught md5c (fun _ => FileState.unreadable .fileNotFoundError)
      "b.png".toList .fileNotFoundError rfl).1 rfl⟩

/-- C4 (counterexample): an emitted index file whose body begins with a
space (such bodies are reachable: a body `[[ x]]` is rewritten to ` x` by
the wiki-link step).  Re-parsing the emitted file recovers the property
mapping but returns body `x`, not the written body ` x`: the trailing `\s*`
of the pattern together with the parser's `lstrip` swallow the body's
leading whitespace, so the round-trip claim fails. -/
theorem c4_counterexample :
    parse_note_content yloadDemo (writeIndex "title: t\n".toList " x".toList) =
      (.map [("title", .str "t")], "x".toList) ∧
    "x".toList ≠ " x".toList :=
  ⟨rfl, by decide⟩

/-- C4 (amended): the round trip holds when the serialized header consists
of well-formed lines (each ending in its only newline, none beginning with
`---`, the first starting with a non-whitespace character), the header
re-parses to the written mapping, and the written body is empty or starts
with a non-whitespace character.  Bodies with leading whitespace are
truncated on re-parsing. -/
theorem c4_roundtrip_amended (yload : List Char → Except Unit Yaml)
    (lines : List (List Char)) (B : List Char) (props : Dict)
    (hl : ∀ li ∈ lines, goodLine li)
    (hfirst : ∀ c cs, lines.flatten = c :: cs → isPySpace c = false)
    (hB : B = [] ∨ ∃ c cs, B = c :: cs ∧ isPySpace c = false)
    (hy : yload ('\n' :: lines.flatten) = .ok (.map props))
    (hne : props.isEmpty = false) :
    parse_note_content yload (writeIndex lines.flatten B) = (.map props, B) := by
  have hw : writeIndex lines.flatten B =
      '-' :: '-' :: '-' :: '\n' ::
        (lines.flatten ++ '-' :: '-' :: '-' :: ('\n' :: '\n' :: B)) := by
    simp only [writeIndex,
      show ("---\n".toList : List Char) = ['-', '-', '-', '\n'] from by decide,
      show ("---\n\n".toList : List Char) = ['-', '-', '-', '\n', '\n'] from by decide]
    simp
  have hBid : B.dropWhile isPySpace = B := by
    rcases hB with h | ⟨c, cs, hBe, hc⟩
    · simp [h]
    · subst hBe
      simp [List.dropWhile_cons, hc]
  have hdropB : ('\n' :: '\n' :: B).dropWhile isPySpace = B := by
    simp [List.dropWhile_cons, show isPySpace '\n' = true from rfl, hBid]
  rw [hw]
  unfold parse_note_content
  rw [frontMatterMatch_structured lines ('\n' :: '\n' :: B) hl hfirst]
  simp only [hdropB, pyLstrip, hBid, hy]
  simp [Yaml.truthy, hne]

/-- C4 (witness): the amended round trip at a concrete header and body. -/
theorem c4_roundtrip_amended_witness :
    parse_note_content yloadDemo
        (writeIndex "title: t\n".toList "hello".toList) =
      (.map [("title", .str "t")], "hello".toList) :=
  c4_roundtrip_amended yloadDemo ["title: t\n".toList] "hello".toList
    [("title", .str "t")]
    (by
      intro li hli
      simp only [List.mem_singleton] at hli
      subst hli
      refine ⟨by decide, by decide, by decide⟩)
    (by intro c cs h; injection h with h1 h2; subst h1; rfl)
    (Or.inr ⟨'h', "ello".toList, rfl, rfl⟩)
    rfl rfl

/-- C5: if the front-matter pattern does not match, the parser returns an
empty mapping and the input unchanged as the body; if the pattern matches
but the captured region fails YAML parsing, it likewise returns an empty
mapping and the entire original input unchanged. -/
theorem c5_no_block_or_yaml_error (yload : List Char → Except Unit Yaml)
    (full g r : List Char) :
    (frontMatterMatch full = none →
      parse_note_content yload full = (.map [], full)) ∧
    (frontMatterMatch full = some (g, r) → yload g = .error () →
      parse_note_content yload full = (.map [], full)) := by
  constructor
  · intro h
    simp [parse_note_content, h]
  · intro h1 h2
    simp [parse_note_content, h1, h2]

/-- C5 (witness): a note with no front-matter block, and a note whose
captured region `a: [` is malformed YAML. -/
theorem c5_witness :
    parse_note_content yloadDemo "hello".toList = (.map [], "hello".toList) ∧
    parse_note_content yloadDemo "---\na: [\n---\nx".toList =
      (.map [], "---\na: [\n---\nx".toList) :=
  ⟨(c5_no_block_or_yaml_error yloadDemo "hello".toList [] []).1 rfl,
   (c5_no_block_or_yaml_error yloadDemo "---\na: [\n---\nx".toList
      "\na: [\n".toList "x".toList).2 rfl rfl⟩

/-- C6: tag normalization and selection.  (1) A string-valued `tags`
property is split on commas with each fragment stripped; (2) a sequence is
used as is; (3) an absent property normalizes to the empty sequence; (4) if
the selection tag is not a member (string equality, hence exact and
case-sensitive) the note is skipped with no bundle and no recorded side
effects (`.ok none`); (5) if it is a member the note is processed to a
bundle; (6) the comma-joined string form and the sequence form of the same
(comma-free, already-stripped) tags normalize identically. -/
theorem c6_tag_selection (yload : List Char → Except Unit Yaml)
    (fs : String → FileState) (md5 : List Nat → String)
    (ftag now stem : String) (rm : Bool)
    (full body : List Char) (kvs : Dict) (b : Bool)
    (s : String) (xs : List Yaml) (ts : List (List Char))
    (hParse : parse_note_content yload full = (.map kvs, body))
    (hBenign : fsBenign fs)
    (hMem : pyContainsStr (tagsListOf (dictGetD kvs "tags" (.list []))) ftag
      = .ok b)
    (hts1 : ts ≠ [])
    (hts2 : ∀ t ∈ ts, ',' ∉ t ∧ stripChars t = t) :
    (tagsListOf (.str s) =
      .list ((splitComma s.toList).map
        (fun t => .str (String.mk (stripChars t))))) ∧
    (tagsListOf (.list xs) = .list xs) ∧
    (dictHas kvs "tags" = false →
      tagsListOf (dictGetD kvs "tags" (.list [])) = .list []) ∧
    (b = false →
      processNote md5 fs yload ftag rm now stem (.ok full) = .ok none) ∧
    (b = true →
      ∃ r, processNote md5 fs yload ftag rm now stem (.ok full) =
        .ok (some r)) ∧
    (tagsListOf (.str (String.mk (joinComma ts))) =
      tagsListOf (.list (ts.map (fun t => .str (String.mk t))))) := by
  refine ⟨rfl, ?_, ?_, ?_, ?_, ?_⟩
  · cases xs <;> simp [tagsListOf, Yaml.truthy]
  · intro h
    have hg : dictGet kvs "tags" = none := by
      cases hg : dictGet kvs "tags" with
      | none => rfl
      | some v => simp [dictHas, hg] at h
    simp [dictGetD, hg, tagsListOf, Yaml.truthy]
  · intro hb
    subst hb
    simp only [processNote, hParse, processTagged, hMem]
  · intro hb
    subst hb
    obtain ⟨l, hl⟩ := pyIter_ok_of_contains _ _ _ hMem
    obtain ⟨d, hd⟩ := updateTags_ok rm ftag _ kvs l hl
    obtain ⟨out, hout⟩ := resolveEmbeds_ok md5 fs hBenign (findEmbeds body)
    obtain ⟨reps, copies⟩ := out
    refine ⟨⟨stem, copies, applyDefaults stem now d,
      wikiSub (reps.foldl (fun c pr => replaceAll pr.1 pr.2 c) body)⟩, ?_⟩
    simp only [processNote, hParse, processTagged, hMem, hd, hout]
  · have h1 : tagsListOf (.str (String.mk (joinComma ts))) =
        .list ((splitComma (joinComma ts)).map
          (fun t => .str (String.mk (stripChars t)))) := rfl
    rw [h1, splitComma_joinComma ts hts1 (fun t ht => (hts2 t ht).1)]
    have h2 : ts.map (fun t => Yaml.str (String.mk (stripChars t))) =
        ts.map (fun t => Yaml.str (String.mk t)) :=
      List.map_congr_left (fun t ht => by rw [(hts2 t ht).2])
    rw [h2]
    cases hm : ts.map (fun t => Yaml.str (String.mk t)) with
    | nil =>
      cases ts with
      | nil => exact absurd rfl hts1
      | cons a l => simp at hm
    | cons a l => simp [tagsListOf, Yaml.truthy]

/-- C6 (witness): the selection and agreement statements at a concrete
tagged note and a concrete pair of tag representations. -/
theorem c6_tag_selection_witness :
    (∃ r, processNote md5c fsAbsent yloadDemo "blog" false "D" "N"
      (.ok "---\ntags: blog\n---\nhi".toList) = .ok (some r)) ∧
    tagsListOf (.str (String.mk (joinComma ["a".toList, "b".toList]))) =
      tagsListOf (.list (["a".toList, "b".toList].map
        (fun t => .str (String.mk t)))) := by
  have h := c6_tag_selection yloadDemo fsAbsent md5c "blog" "D" "N" false
    "---\ntags: blog\n---\nhi".toList "hi".toList [("tags", .str "blog")] true
    "a, b" [.str "x"] ["a".toList, "b".toList]
    rfl (fun p e hx => FileState.noConfusion hx) rfl (by simp) (by decide)
  exact ⟨h.2.2.2.2.1 rfl, h.2.2.2.2.2⟩

/-- C7: post-selection tag policy.  With the remove flag: the emitted `tags`
value is the normalized sequence with every occurrence of the selection tag
removed (Python `!=`, modelled by `pyEqStr`); when that filtered sequence is
empty the `tags` key is absent from the emitted mapping (the title/date
defaulting never touches it); without the flag the full normalized sequence
is assigned back. -/
theorem c7_tag_update (ftag stem now : String) (ts : List Yaml) (kvs : Dict) :
    ((ts.filter (fun t => !pyEqStr t ftag)).isEmpty = false →
      updateTags true ftag (.list ts) kvs =
        .ok (dictSet kvs "tags"
          (.list (ts.filter (fun t => !pyEqStr t ftag)))) ∧
      dictGet (applyDefaults stem now (dictSet kvs "tags"
          (.list (ts.filter (fun t => !pyEqStr t ftag))))) "tags" =
        some (.list (ts.filter (fun t => !pyEqStr t ftag)))) ∧
    ((ts.filter (fun t => !pyEqStr t ftag)).isEmpty = true →
      ∃ d, updateTags true ftag (.list ts) kvs = .ok d ∧
        dictGet (applyDefaults stem now d) "tags" = none) ∧
    (updateTags false ftag (.list ts) kvs =
        .ok (dictSet kvs "tags" (.list ts)) ∧
      dictGet (applyDefaults stem now (dictSet kvs "tags" (.list ts))) "tags" =
        some (.list ts)) := by
  refine ⟨fun h => ⟨?_, ?_⟩, fun h => ?_, ?_, ?_⟩
  · simp [updateTags, pyIter, h]
  · rw [dictGet_applyDefaults_tags, dictGet_dictSet_self]
  · cases hdh : dictHas kvs "tags" with
    | true =>
      refine ⟨dictDel kvs "tags", ?_, ?_⟩
      · simp [updateTags, pyIter, h, hdh]
      · rw [dictGet_applyDefaults_tags, dictGet_dictDel_self]
    | false =>
      refine ⟨kvs, ?_, ?_⟩
      · simp [updateTags, pyIter, h, hdh]
      · rw [dictGet_applyDefaults_tags]
        simpa [dictHas, Option.isSome_iff_exists] using hdh
  · rfl
  · rw [dictGet_applyDefaults_tags, dictGet_dictSet_self]

/-- C7 (witness): the policy at concrete tag lists — `[blog, draft]` keeps
`[draft]` under the remove flag, `[blog]` loses the `tags` key entirely, and
without the flag the full list is written back. -/
theorem c7_tag_update_witness :
    (updateTags true "blog" (.list [.str "blog", .str "draft"])
        [("tags", .str "blog, draft")] =
      .ok [("tags", .list [.str "draft"])] ∧
     dictGet (applyDefaults "N" "D" [("tags", .list [.str "draft"])]) "tags" =
      some (.list [.str "draft"])) ∧
    (∃ d, updateTags true "blog" (.list [.str "blog"])
        [("tags", .str "blog")] = .ok d ∧
      dictGet (applyDefaults "N" "D" d) "tags" = none) ∧
    (updateTags false "blog" (.list [.str "blog", .str "draft"])
        [("tags", .str "blog, draft")] =
      .ok [("tags", .list [.str "blog", .str "draft"])] ∧
     dictGet (applyDefaults "N" "D"
        [("tags", .list [.str "blog", .str "draft"])]) "tags" =
      some (.list [.str "blog", .str "draft"])) :=
  ⟨(c7_tag_update "blog" "N" "D" [.str "blog", .str "draft"]
      [("tags", .str "blog, draft")]).1 rfl,
   (c7_tag_update "blog" "N" "D" [.str "blog"] [("tags", .str "blog")]).2.1 rfl,
   (c7_tag_update "blog" "N" "D" [.str "blog", .str "draft"]
      [("tags", .str "blog, draft")]).2.2⟩

/-- C8 (counterexample): two attachment files with identical byte content
`[7]` but different extensions.  Both tokens resolve, but to *different*
target filenames (`d41d8cd9.png` versus `d41d8cd9.jpg`), refuting "both
resolve to the same deterministic target filename" as universally stated. -/
theorem c8_counterexample :
    resolveEmbeds md5c fsTwin
      [("![[a.png]]".toList, "a.png".toList),
       ("![[b.jpg]]".toList, "b.jpg".toList)] =
      .ok ([("![[a.png]]".toList, "![](d41d8cd9.png)".toList),
            ("![[b.jpg]]".toList, "![](d41d8cd9.jpg)".toList)],
           [("a.png", "d41d8cd9.png"), ("b.jpg", "d41d8cd9.jpg")]) ∧
    ("d41d8cd9.png" : String) ≠ "d41d8cd9.jpg" ∧
    fsTwin "a.png" = .readable [7] ∧ fsTwin "b.jpg" = .readable [7] :=
  ⟨rfl, by decide, rfl, rfl⟩

/-- C8 (amended): two embed tokens referencing files with identical byte
content *and identical extension* resolve to the same deterministic target
filename, the digest's hex form concatenated with the extension (leading
separator included); processing both tokens performs the copy twice with the
identical target name both times. -/
theorem c8_same_content_same_target (md5 : List Nat → String)
    (fs : String → FileState) (n1 n2 tok1 tok2 : List Char) (bytes : List Nat)
    (h1 : fs (String.mk n1) = .readable bytes)
    (h2 : fs (String.mk n2) = .readable bytes)
    (hs : pathSuffix (String.mk n2) = pathSuffix (String.mk n1)) :
    resolveEmbed md5 fs n1 =
      .ok (some (md5 bytes ++ pathSuffix (String.mk n1))) ∧
    resolveEmbed md5 fs n2 =
      .ok (some (md5 bytes ++ pathSuffix (String.mk n1))) ∧
    resolveEmbeds md5 fs [(tok1, n1), (tok2, n2)] =
      .ok ([(tok1, ("![](" ++ (md5 bytes ++ pathSuffix (String.mk n1)) ++ ")").toList),
            (tok2, ("![](" ++ (md5 bytes ++ pathSuffix (String.mk n1)) ++ ")").toList)],
           [(String.mk n1, md5 bytes ++ pathSuffix (String.mk n1)),
            (String.mk n2, md5 bytes ++ pathSuffix (String.mk n1))]) := by
  have e1 : resolveEmbed md5 fs n1 =
      .ok (some (md5 bytes ++ pathSuffix (String.mk n1))) := by
    simp [resolveEmbed, calculate_md5, h1]
  have e2 : resolveEmbed md5 fs n2 =
      .ok (some (md5 bytes ++ pathSuffix (String.mk n1))) := by
    simp [resolveEmbed, calculate_md5, h2, hs]
  refine ⟨e1, e2, ?_⟩
  simp [resolveEmbeds, e1, e2]

/-- C8 (witness): the amended statement at two files with the same bytes and
the same `.png` extension — one copy per token, identical target name. -/
theorem c8_same_content_same_target_witness :
    resolveEmbeds md5c
      (fun p => if p == "a.png" || p == "b.png"
        then FileState.readable [7] else .absent)
      [("![[a.png]]".toList, "a.png".toList),
       ("![[b.png]]".toList, "b.png".toList)] =
      .ok ([("![[a.png]]".toList, "![](d41d8cd9.png)".toList),
            ("![[b.png]]".toList, "![](d41d8cd9.png)".toList)],
           [("a.png", "d41d8cd9.png"), ("b.png", "d41d8cd9.png")]) :=
  (c8_same_content_same_target md5c
    (fun p => if p == "a.png" || p == "b.png"
      then FileState.readable [7] else .absent)
    "a.png".toList "b.png".toList "![[a.png]]".toList "![[b.png]]".toList
    [7] rfl rfl rfl).2.2

/-- C9 (counterexample): a closing line `---extra` that merely *begins* with
the delimiter.  The claim says this is not a valid closing delimiter, so no
front-matter block should be recognized here (there is no other closing
line); in fact the pattern — whose closing part `^---\s*` has no `$` —
accepts it, and the remainder `extra` of the closing line is even glued onto
the returned body. -/
theorem c9_counterexample :
    frontMatterMatch "---\na: 1\n---extra\nbody".toList =
      some ("\na: 1\n".toList, "extra\nbody".toList) ∧
    parse_note_content yloadDemo "---\na: 1\n---extra\nbody".toList =
      (.map [("a", .int 1)], "extra\nbody".toList) :=
  ⟨rfl, rfl⟩

/-- C9 (amended): the opening delimiter line must consist solely of `---`
(a non-whitespace character directly after the dashes defeats the match, as
does a string not starting with `---` at all), and the region is matched
non-greedily up to the *first* line that **begins** with `---` — that
closing line may continue with arbitrary further text, which is not part of
the match. -/
theorem c9_delimiters (lines : List (List Char)) (t : List Char)
    (c : Char) (r : List Char) (s0 : List Char)
    (hl : ∀ li ∈ lines, goodLine li)
    (hfirst : ∀ c2 cs, lines.flatten = c2 :: cs → isPySpace c2 = false)
    (hc : isPySpace c = false)
    (h0 : startsWithDashes s0 = none) :
    frontMatterMatch ('-' :: '-' :: '-' :: '\n' ::
        (lines.flatten ++ '-' :: '-' :: '-' :: t)) =
      some ('\n' :: lines.flatten, t.dropWhile isPySpace) ∧
    frontMatterMatch ('-' :: '-' :: '-' :: c :: r) = none ∧
    frontMatterMatch s0 = none := by
  refine ⟨frontMatterMatch_structured lines t hl hfirst, ?_, ?_⟩
  · unfold frontMatterMatch
    rw [show startsWithDashes ('-' :: '-' :: '-' :: c :: r) = some (c :: r)
      from rfl]
    have hws : (c :: r).takeWhile isPySpace = [] := by
      simp [List.takeWhile_cons, hc]
    have hdr : (c :: r).dropWhile isPySpace = c :: r := by
      simp [List.dropWhile_cons, hc]
    simp only [hws, hdr, List.isEmpty_cons, Bool.false_eq_true, if_false]
    rfl
  · unfold frontMatterMatch
    rw [h0]

/-- C9 (witness): the delimiter characterization at a concrete header, a
concrete rejected opening `---x`, and a concrete dash-free input. -/
theorem c9_delimiters_witness :
    frontMatterMatch ('-' :: '-' :: '-' :: '\n' ::
        (["a: 1\n".toList].flatten ++ '-' :: '-' :: '-' :: "extra\nbody".toList)) =
      some ('\n' :: ["a: 1\n".toList].flatten, "extra\nbody".toList) ∧
    frontMatterMatch ('-' :: '-' :: '-' :: 'x' :: []) = none ∧
    frontMatterMatch "no dashes".toList = none :=
  c9_delimiters ["a: 1\n".toList] "extra\nbody".toList 'x' []
    "no dashes".toList
    (by
      intro li hli
      simp only [List.mem_singleton] at hli
      subst hli
      exact ⟨by decide, by decide, by decide⟩)
    (by intro c2 cs hx; injection hx with hx1 hx2; subst hx1; rfl)
    rfl rfl

/-- C10 (counterexample): a front-matter region that is valid YAML and
parses to the non-mapping `0`.  Because `0` is falsy, `safe_load(...) or {}`
coerces it to the empty mapping: the parser does *not* return the scalar as
the properties, the tags lookup does *not* raise, and the note is skipped
normally — refuting the claim for falsy non-mapping values. -/
theorem c10_counterexample :
    parse_note_content yloadDemo "---\n0\n---\nbody".toList =
      (.map [], "body".toList) ∧
    processNote md5c fsAbsent yloadDemo "blog" false "D" "N"
      (.ok "---\n0\n---\nbody".toList) = .ok none ∧
    yloadDemo "\n0\n".toList = .ok (.int 0) ∧ isMapB (.int 0) = false :=
  ⟨rfl, rfl, rfl, rfl⟩

/-- C10 (amended): a *truthy* non-mapping front-matter value is returned as
the properties and the subsequent `properties.get('tags', [])` raises
`AttributeError`, aborting instead of skipping or processing; a *falsy*
value (`None`, `False`, `0`, empty string/sequence) is coerced to the empty
mapping by `or {}` and the note is then skipped normally. -/
theorem c10_nonmapping (yload : List Char → Except Unit Yaml)
    (md5 : List Nat → String) (fs : String → FileState)
    (ftag : String) (rm : Bool) (now stem : String)
    (full g r : List Char) (v : Yaml)
    (hm : frontMatterMatch full = some (g, r))
    (hy : yload g = .ok v) :
    (v.truthy = true → isMapB v = false →
      parse_note_content yload full = (v, r.dropWhile isPySpace) ∧
      processNote md5 fs yload ftag rm now stem (.ok full) =
        .error .attributeError) ∧
    (v.truthy = false →
      parse_note_content yload full = (.map [], r.dropWhile isPySpace) ∧
      processNote md5 fs yload ftag rm now stem (.ok full) = .ok none) := by
  constructor
  · intro ht hnm
    have hp : parse_note_content yload full = (v, r.dropWhile isPySpace) := by
      simp [parse_note_content, hm, hy, ht, pyLstrip]
    refine ⟨hp, ?_⟩
    simp only [processNote, hp]
    cases v with
    | map kvs => simp [isMapB] at hnm
    | null => rfl
    | bool b => rfl
    | int n => rfl
    | str s => rfl
    | list xs => rfl
  · intro ht
    have hp : parse_note_content yload full = (.map [], r.dropWhile isPySpace) := by
      simp [parse_note_content, hm, hy, ht, pyLstrip]
    refine ⟨hp, ?_⟩
    simp only [processNote, hp]
    rfl

/-- C10 (witness): the truthy case at region `hello` (a bare scalar) and
the falsy case at region `0`. -/
theorem c10_nonmapping_witness :
    (parse_note_content yloadDemo "---\nhello\n---\nbody".toList =
        (.str "hello", "body".toList) ∧
      processNote md5c fsAbsent yloadDemo "blog" false "D" "N"
        (.ok "---\nhello\n---\nbody".toList) = .error .attributeError) ∧
    (parse_note_content yloadDemo "---\n0\n---\nx".toList =
        (.map [], "x".toList) ∧
      processNote md5c fsAbsent yloadDemo "blog" false "D" "N"
        (.ok "---\n0\n---\nx".toList) = .ok none) :=
  ⟨(c10_nonmapping yloadDemo md5c fsAbsent "blog" false "D" "N"
      "---\nhello\n---\nbody".toList "\nhello\n".toList "body".toList
      (.str "hello") rfl rfl).1 rfl rfl,
   (c10_nonmapping yloadDemo md5c fsAbsent "blog" false "D" "N"
      "---\n0\n---\nx".toList "\n0\n".toList "x".toList
      (.int 0) rfl rfl).2 rfl⟩
